import Mathlib

/-!
Shallow embedding of the visible slice of the UQpy repository:

* `Criterion` (src/UQpy/sampling/latin_hypercube_criteria/baseclass/Criterion.py):
  the Latin-hypercube stratified bin sampler.  Real-valued numpy arrays are
  modelled over `ℚ`; an `np.random.RandomState` is modelled as an infinite
  stream of unit-interval draws together with a cursor position, so that
  consuming `size` draws advances the cursor by `size`.
* `Distribution.update_parameters` (src/UQpy/distributions/baseclass/Distribution.py):
  the parameters dictionary is modelled as an association list with distinct
  keys in insertion order, which is how a Python dict behaves; the `parameters`
  property getter of the source re-invokes itself, modelled with an explicit
  call-depth budget whose exhaustion is Python's RecursionError.
* `ExpectedImprovement.evaluate_function`
  (src/UQpy/sampling/adaptive_kriging_functions/ExpectedImprovement.py):
  the surrogate and the normal cdf/pdf are abstract parameters; the selection
  of the `n_add` best candidates via `argsort` is modelled with `mergeSort`
  on indices (numpy's `argsort` is one such sorting permutation).
-/

/-- A 2-D numpy array, reduced to what `create_bins` can observe: its shape
and its entries.  `create_bins` reads only `rows` (= `samples.shape[0]`) and
`cols` (= `samples.shape[1]`). -/
structure Mat where
  rows : ℕ
  cols : ℕ
  entries : ℕ → ℕ → ℚ

/-- Model of `np.random.RandomState`: the infinite stream of uniform draws it
will produce, plus the cursor of how many draws have been consumed. -/
structure RandomState where
  stream : ℕ → ℚ
  pos : ℕ

/-- `stats.uniform.rvs(size=size, random_state=rs)`: the next `size` draws of
the stream, and the generator advanced past them. -/
def uniform_rvs (size : ℕ) (rs : RandomState) : List ℚ × RandomState :=
  ((List.range size).map (fun k => rs.stream (rs.pos + k)), ⟨rs.stream, rs.pos + size⟩)

/-- `np.linspace(0, 1, num)`: `num` equally spaced points from 0 to 1
inclusive.  `np.linspace(0,1,1) = [0]` and `np.linspace(0,1,0) = []`. -/
def linspace01 (num : ℕ) : List ℚ :=
  if num ≤ 1 then (List.range num).map (fun _ => (0 : ℚ))
  else (List.range num).map (fun k : ℕ => (k : ℚ) / ((num : ℚ) - 1))

/-- The elementwise numpy expression `u * (b - a) + a` on three arrays of the
same length `u.length`. -/
def stratColumn (a b u : List ℚ) : List ℚ :=
  (List.range u.length).map
    (fun k => u.getD k 0 * (b.getD k 0 - a.getD k 0) + a.getD k 0)

/-- The loop `for i in range(d): u[:, i] = stats.uniform.rvs(size=n, random_state=rs)`
of `create_bins`: column after column, `n` fresh draws each, threading the
generator left to right.  Returns the list of the `d` columns of `u` and the
advanced generator. -/
def drawColumns (n : ℕ) : ℕ → RandomState → List (List ℚ) × RandomState
  | 0, rs => ([], rs)
  | d + 1, rs =>
    let p := uniform_rvs n rs
    let q := drawColumns n d p.2
    (p.1 :: q.1, q.2)

/-- The stratum bounds and the stratified matrix retained by `create_bins`
(`self.a`, `self.b`, `self.samples`).  The stratified matrix is stored as its
list of columns, matching the column-wise writes of the source. -/
structure Bins where
  a : List ℚ
  b : List ℚ
  samples : List (List ℚ)

/-- State of a `Criterion` sampler instance.  `bins = none` models the state
after `__init__` (where `self.a = 0`, `self.b = 0` are placeholder scalars and
no stratum bounds exist yet); `bins = some _` models the state after
`create_bins`. -/
structure Criterion where
  bins : Option Bins
  random_state : RandomState

/-- Errors of the sampler contract named by the spec. -/
inductive SamplerError
  | ConfigurationError
  | InvalidShapeError
  | StateError
deriving DecidableEq

/-- The possible values of the `random_state` argument of `Criterion.__init__`:
`None`, an integer seed, an `np.random.RandomState` instance, or a value of
any other type. -/
inductive RandomStateInput
  | noneI
  | intSeed (s : ℤ)
  | gen (g : RandomState)
  | other (tag : String)

/-- Modelled from the spec: the `@check_random_state()` decorator applied to
`Criterion.__init__` lives in `UQpy.utilities.validation.Validations`, which is
not under src/.  Per the spec it accepts an integer seed, a generator instance
or nothing, and fails with `ConfigurationError` for a value of any other
type. -/
def check_random_state : RandomStateInput → Except SamplerError RandomStateInput
  | .other _ => .error .ConfigurationError
  | x => .ok x

/-- `Criterion.__init__(random_state)`: after the `check_random_state`
validation, an integer seed is wrapped into a fresh deterministic generator
(`np.random.RandomState(seed)`, modelled by the deterministic stream
`mtStream seed` at cursor 0), a generator instance is used as-is, and `None`
leaves the draws to numpy's global generator (modelled by the ambient
`globalR`). -/
def Criterion.init (mtStream : ℤ → ℕ → ℚ) (globalR : RandomState)
    (inp : RandomStateInput) : Except SamplerError Criterion :=
  match check_random_state inp with
  | .error e => .error e
  | .ok .noneI => .ok ⟨none, globalR⟩
  | .ok (.intSeed s) => .ok ⟨none, ⟨mtStream s, 0⟩⟩
  | .ok (.gen g) => .ok ⟨none, g⟩
  | .ok (.other _) => .error .ConfigurationError

/-- `Criterion.create_bins(samples)`, line for line:
`samples_number = samples.shape[0]`; `cut = np.linspace(0, 1, samples_number + 1)`;
`self.a = cut[:samples_number]`; `self.b = cut[1:samples_number + 1]`;
then for each of the `samples.shape[1]` columns draw `samples.shape[0]`
uniforms and write `u[:, i] * (self.b - self.a) + self.a`. -/
def create_bins (c : Criterion) (m : Mat) : Criterion :=
  let n := m.rows
  let cut := linspace01 (n + 1)
  let a := cut.take n
  let b := (cut.drop 1).take n
  let uc := drawColumns n m.cols c.random_state
  let strat := uc.1.map (fun u => stratColumn a b u)
  ⟨some ⟨a, b, strat⟩, uc.2⟩

/-- Modelled from the spec: `generate_samples` is abstract in the source
(`@abstractmethod`, body `pass`); its concrete variants are not under src/.
Per the spec contract a variant consumes the stratum bounds and stratified
matrix produced by `create_bins` and applies a variant-specific rearrangement,
and it fails with `StateError` when invoked before `create_bins` has
established the stratum bounds. -/
def generate_samples (rearrange : Bins → List (List ℚ)) (c : Criterion) :
    Except SamplerError (List (List ℚ)) :=
  match c.bins with
  | none => .error .StateError
  | some bn => .ok (rearrange bn)

/-- The retained `self.a` after `create_bins` (empty before). -/
def Criterion.getA (c : Criterion) : List ℚ :=
  match c.bins with
  | some bn => bn.a
  | none => []

/-- The retained `self.b` after `create_bins` (empty before). -/
def Criterion.getB (c : Criterion) : List ℚ :=
  match c.bins with
  | some bn => bn.b
  | none => []

/-- The retained stratified matrix `self.samples` after `create_bins`, as a
list of columns. -/
def Criterion.getSamples (c : Criterion) : List (List ℚ) :=
  match c.bins with
  | some bn => bn.samples
  | none => []

/-- Entry `self.samples[i, j]` of the stratified matrix. -/
def Criterion.entry (c : Criterion) (i j : ℕ) : ℚ :=
  (c.getSamples.getD j []).getD i 0

/-! ### Helper lemmas on the bound arrays -/

theorem getA_create_bins (c : Criterion) (m : Mat) :
    (create_bins c m).getA = (linspace01 (m.rows + 1)).take m.rows := rfl

theorem getB_create_bins (c : Criterion) (m : Mat) :
    (create_bins c m).getB = ((linspace01 (m.rows + 1)).drop 1).take m.rows := rfl

theorem getSamples_create_bins (c : Criterion) (m : Mat) :
    (create_bins c m).getSamples =
      (drawColumns m.rows m.cols c.random_state).1.map
        (fun u => stratColumn ((linspace01 (m.rows + 1)).take m.rows)
          (((linspace01 (m.rows + 1)).drop 1).take m.rows) u) := rfl

theorem linspace01_getElem (num k : ℕ) (h2 : 2 ≤ num) (hk : k < num) :
    (linspace01 num)[k]? = some ((k : ℚ) / ((num : ℚ) - 1)) := by
  unfold linspace01
  rw [if_neg (by omega), List.getElem?_map, List.getElem?_range hk]
  rfl

theorem create_bins_a_getElem (c : Criterion) (m : Mat) (i : ℕ)
    (h1 : 1 ≤ m.rows) (hi : i < m.rows) :
    (create_bins c m).getA[i]? = some ((i : ℚ) / (m.rows : ℚ)) := by
  rw [getA_create_bins, List.getElem?_take_of_lt hi,
    linspace01_getElem (m.rows + 1) i (by omega) (by omega)]
  push_cast
  ring_nf

theorem create_bins_b_getElem (c : Criterion) (m : Mat) (i : ℕ)
    (h1 : 1 ≤ m.rows) (hi : i < m.rows) :
    (create_bins c m).getB[i]? = some (((i : ℚ) + 1) / (m.rows : ℚ)) := by
  rw [getB_create_bins, List.getElem?_take_of_lt hi, List.getElem?_drop,
    linspace01_getElem (m.rows + 1) (1 + i) (by omega) (by omega)]
  push_cast
  ring_nf

theorem create_bins_a_getD (c : Criterion) (m : Mat) (i : ℕ)
    (h1 : 1 ≤ m.rows) (hi : i < m.rows) :
    (create_bins c m).getA.getD i 0 = (i : ℚ) / (m.rows : ℚ) := by
  rw [List.getD_eq_getElem?_getD, create_bins_a_getElem c m i h1 hi]
  rfl

theorem create_bins_b_getD (c : Criterion) (m : Mat) (i : ℕ)
    (h1 : 1 ≤ m.rows) (hi : i < m.rows) :
    (create_bins c m).getB.getD i 0 = ((i : ℚ) + 1) / (m.rows : ℚ) := by
  rw [List.getD_eq_getElem?_getD, create_bins_b_getElem c m i h1 hi]
  rfl

theorem linspace01_length (num : ℕ) : (linspace01 num).length = num := by
  unfold linspace01
  split <;> simp

theorem create_bins_getA_length (c : Criterion) (m : Mat) :
    (create_bins c m).getA.length = m.rows := by
  rw [getA_create_bins, List.length_take, linspace01_length]
  omega

theorem create_bins_getB_length (c : Criterion) (m : Mat) :
    (create_bins c m).getB.length = m.rows := by
  rw [getB_create_bins, List.length_take, List.length_drop, linspace01_length]
  omega

/-- C1: for every matrix with `n ≥ 1` rows, after `create_bins` the retained
bound arrays satisfy `a[i] = i/n` and `b[i] = (i+1)/n` for every `i < n`;
consequently `a[0] = 0`, `b[n-1] = 1`, `b[i] = a[i+1]` for `i < n-1`, and
`b[i] - a[i] = 1/n`. -/
theorem create_bins_bounds_spec (c : Criterion) (m : Mat) (i : ℕ)
    (h1 : 1 ≤ m.rows) (hi : i < m.rows) :
    (create_bins c m).getA.getD i 0 = (i : ℚ) / (m.rows : ℚ) ∧
    (create_bins c m).getB.getD i 0 = ((i : ℚ) + 1) / (m.rows : ℚ) ∧
    (create_bins c m).getA.getD 0 0 = 0 ∧
    (create_bins c m).getB.getD (m.rows - 1) 0 = 1 ∧
    (i < m.rows - 1 →
      (create_bins c m).getB.getD i 0 = (create_bins c m).getA.getD (i + 1) 0) ∧
    (create_bins c m).getB.getD i 0 - (create_bins c m).getA.getD i 0 =
      1 / (m.rows : ℚ) := by
  have hn0 : (m.rows : ℚ) ≠ 0 := by
    have : m.rows ≠ 0 := by omega
    exact_mod_cast this
  have ha := create_bins_a_getD c m i h1 hi
  have hb := create_bins_b_getD c m i h1 hi
  refine ⟨ha, hb, ?_, ?_, ?_, ?_⟩
  · rw [create_bins_a_getD c m 0 h1 (by omega)]
    simp
  · rw [create_bins_b_getD c m (m.rows - 1) h1 (by omega)]
    rw [div_eq_one_iff_eq hn0]
    push_cast [Nat.cast_sub h1]
    ring
  · intro hlt
    rw [hb, create_bins_a_getD c m (i + 1) h1 (by omega)]
    push_cast
    ring_nf
  · rw [ha, hb]
    field_simp

/-- Witness for C1 at `n = 2`, `i = 1`. -/
theorem create_bins_bounds_spec_witness :
    (1 ≤ (2 : ℕ) ∧ 1 < 2) ∧
    ((create_bins ⟨none, ⟨fun _ => 0, 0⟩⟩ ⟨2, 1, fun _ _ => 0⟩).getA.getD 1 0 =
        (1 : ℚ) / 2 ∧
      (create_bins ⟨none, ⟨fun _ => 0, 0⟩⟩ ⟨2, 1, fun _ _ => 0⟩).getB.getD 1 0 =
        ((1 : ℚ) + 1) / 2 ∧
      (create_bins ⟨none, ⟨fun _ => 0, 0⟩⟩ ⟨2, 1, fun _ _ => 0⟩).getA.getD 0 0 = 0 ∧
      (create_bins ⟨none, ⟨fun _ => 0, 0⟩⟩ ⟨2, 1, fun _ _ => 0⟩).getB.getD (2 - 1) 0 = 1 ∧
      (1 < 2 - 1 →
        (create_bins ⟨none, ⟨fun _ => 0, 0⟩⟩ ⟨2, 1, fun _ _ => 0⟩).getB.getD 1 0 =
          (create_bins ⟨none, ⟨fun _ => 0, 0⟩⟩ ⟨2, 1, fun _ _ => 0⟩).getA.getD 2 0) ∧
      (create_bins ⟨none, ⟨fun _ => 0, 0⟩⟩ ⟨2, 1, fun _ _ => 0⟩).getB.getD 1 0 -
          (create_bins ⟨none, ⟨fun _ => 0, 0⟩⟩ ⟨2, 1, fun _ _ => 0⟩).getA.getD 1 0 =
        1 / 2) :=
  ⟨⟨by decide, by decide⟩,
    create_bins_bounds_spec ⟨none, ⟨fun _ => 0, 0⟩⟩ ⟨2, 1, fun _ _ => 0⟩ 1
      (by decide) (by decide)⟩

/-! ### Helper lemmas on the drawn columns -/

theorem drawColumns_snd (n : ℕ) :
    ∀ (d : ℕ) (rs : RandomState),
      (drawColumns n d rs).2 = ⟨rs.stream, rs.pos + d * n⟩
  | 0, rs => by simp [drawColumns]
  | d + 1, rs => by
    show (drawColumns n d ⟨rs.stream, rs.pos + n⟩).2 = _
    rw [drawColumns_snd n d ⟨rs.stream, rs.pos + n⟩]
    simp only
    congr 1
    ring

theorem drawColumns_fst_length (n : ℕ) :
    ∀ (d : ℕ) (rs : RandomState), (drawColumns n d rs).1.length = d
  | 0, _ => rfl
  | d + 1, rs => by
    show (drawColumns n d ⟨rs.stream, rs.pos + n⟩).1.length + 1 = d + 1
    rw [drawColumns_fst_length n d ⟨rs.stream, rs.pos + n⟩]

theorem drawColumns_fst_getElem (n : ℕ) :
    ∀ (d : ℕ) (rs : RandomState) (j : ℕ), j < d →
      (drawColumns n d rs).1[j]? =
        some ((List.range n).map (fun k => rs.stream (rs.pos + (j * n + k))))
  | 0, _, j, hj => absurd hj (Nat.not_lt_zero j)
  | d + 1, rs, 0, _ => by
    simp only [drawColumns, uniform_rvs, List.getElem?_cons_zero, Option.some.injEq]
    refine List.map_congr_left (fun k _ => ?_)
    congr 1
    omega
  | d + 1, rs, j + 1, hj => by
    have ih := drawColumns_fst_getElem n d ⟨rs.stream, rs.pos + n⟩ j (by omega)
    simp only [drawColumns, uniform_rvs, List.getElem?_cons_succ]
    rw [ih]
    simp only [Option.some.injEq]
    refine List.map_congr_left (fun k _ => ?_)
    congr 1
    ring

theorem stratColumn_getD (a b u : List ℚ) (i : ℕ) (hi : i < u.length) :
    (stratColumn a b u).getD i 0 =
      u.getD i 0 * (b.getD i 0 - a.getD i 0) + a.getD i 0 := by
  unfold stratColumn
  rw [List.getD_eq_getElem?_getD, List.getElem?_map, List.getElem?_range hi]
  rfl

/-- Column `j` of the stratified matrix produced by `create_bins` is the
`stratColumn` rescaling of the `j`-th batch of `n` fresh draws. -/
theorem create_bins_col (c : Criterion) (m : Mat) (j : ℕ) (hj : j < m.cols) :
    (create_bins c m).getSamples.getD j [] =
      stratColumn (create_bins c m).getA (create_bins c m).getB
        ((List.range m.rows).map (fun k =>
          c.random_state.stream (c.random_state.pos + (j * m.rows + k)))) := by
  rw [getSamples_create_bins,
    List.getD_eq_getElem?_getD ((drawColumns m.rows m.cols c.random_state).1.map _) j,
    List.getElem?_map, drawColumns_fst_getElem m.rows m.cols c.random_state j hj]
  rfl

/-- The entry `self.samples[i, j]` produced by `create_bins` is the fresh draw
number `j * n + i` of the configured random source, rescaled into stratum `i`. -/
theorem create_bins_entry_eq (c : Criterion) (m : Mat) (i j : ℕ)
    (hi : i < m.rows) (hj : j < m.cols) :
    (create_bins c m).entry i j =
      c.random_state.stream (c.random_state.pos + (j * m.rows + i)) *
          ((create_bins c m).getB.getD i 0 - (create_bins c m).getA.getD i 0) +
        (create_bins c m).getA.getD i 0 := by
  unfold Criterion.entry
  rw [create_bins_col c m j hj]
  rw [stratColumn_getD _ _ _ i (by simpa using hi)]
  rw [List.getD_eq_getElem?_getD ((List.range m.rows).map _) i, List.getElem?_map,
    List.getElem?_range hi]
  rfl

/-- C2: for every valid shape (`n ≥ 1`, `d ≥ 1`) and every entry position
`(i, j)`, `create_bins` sets `stratified[i,j] = u[i,j]*(b[i]-a[i]) + a[i]`
where `u[i,j]` is the fresh draw number `j*n + i` of the configured random
source; and whenever the draws lie in `[0,1)` (as numpy uniform draws do),
every entry lies in the half-open stratum interval `[a[i], b[i])` of its
row, in every column. -/
theorem create_bins_stratified_spec (c : Criterion) (m : Mat) (i j : ℕ)
    (h1 : 1 ≤ m.rows) (hi : i < m.rows) (hj : j < m.cols)
    (hdraw : ∀ k, 0 ≤ c.random_state.stream k ∧ c.random_state.stream k < 1) :
    (create_bins c m).entry i j =
      c.random_state.stream (c.random_state.pos + (j * m.rows + i)) *
          ((create_bins c m).getB.getD i 0 - (create_bins c m).getA.getD i 0) +
        (create_bins c m).getA.getD i 0 ∧
    (create_bins c m).getA.getD i 0 ≤ (create_bins c m).entry i j ∧
    (create_bins c m).entry i j < (create_bins c m).getB.getD i 0 := by
  have hform := create_bins_entry_eq c m i j hi hj
  have ha := create_bins_a_getD c m i h1 hi
  have hb := create_bins_b_getD c m i h1 hi
  have hn : (0 : ℚ) < (m.rows : ℚ) := by exact_mod_cast h1
  have hkey : ((i : ℚ) + 1) / (m.rows : ℚ) - (i : ℚ) / (m.rows : ℚ) =
      1 / (m.rows : ℚ) := by ring
  have h1n : (0 : ℚ) < 1 / (m.rows : ℚ) := by positivity
  obtain ⟨hu0, hu1⟩ := hdraw (c.random_state.pos + (j * m.rows + i))
  refine ⟨hform, ?_, ?_⟩
  · rw [hform, ha, hb, hkey]
    have : 0 ≤ c.random_state.stream (c.random_state.pos + (j * m.rows + i)) *
        (1 / (m.rows : ℚ)) := mul_nonneg hu0 (le_of_lt h1n)
    linarith
  · rw [hform, ha, hb, hkey]
    have hlt : c.random_state.stream (c.random_state.pos + (j * m.rows + i)) *
        (1 / (m.rows : ℚ)) < 1 * (1 / (m.rows : ℚ)) :=
      mul_lt_mul_of_pos_right hu1 h1n
    have hsplit : ((i : ℚ) + 1) / (m.rows : ℚ) =
        (i : ℚ) / (m.rows : ℚ) + 1 / (m.rows : ℚ) := by ring
    rw [hsplit]
    linarith

/-- A generator whose every draw is 1/2, at cursor 0 (used by witnesses). -/
def constHalfRS : RandomState := ⟨fun _ => 1 / 2, 0⟩

/-- A freshly constructed sampler holding `constHalfRS` (used by witnesses). -/
def critHalf : Criterion := ⟨none, constHalfRS⟩

/-- A 1×1 input matrix (used by witnesses). -/
def mat11 : Mat := ⟨1, 1, fun _ _ => 0⟩

/-- Witness for C2 at `n = d = 1`, `i = j = 0`, with all draws 1/2. -/
theorem create_bins_stratified_spec_witness :
    (create_bins critHalf mat11).entry 0 0 =
        critHalf.random_state.stream
            (critHalf.random_state.pos + (0 * mat11.rows + 0)) *
            ((create_bins critHalf mat11).getB.getD 0 0 -
              (create_bins critHalf mat11).getA.getD 0 0) +
          (create_bins critHalf mat11).getA.getD 0 0 ∧
      (create_bins critHalf mat11).getA.getD 0 0 ≤
        (create_bins critHalf mat11).entry 0 0 ∧
      (create_bins critHalf mat11).entry 0 0 <
        (create_bins critHalf mat11).getB.getD 0 0 :=
  create_bins_stratified_spec critHalf mat11 0 0 (by decide) (by decide) (by decide)
    (fun _ => by constructor <;> norm_num [critHalf, constHalfRS])

/-- C3 counterexample: `create_bins` on a 0-row matrix does not raise
`InvalidShapeError` — it returns normally, with empty bound arrays and an
empty stratified column (the source has no shape validation and no
`InvalidShapeError` at all). -/
theorem create_bins_zero_rows_no_error :
    (create_bins ⟨none, ⟨fun _ => 0, 0⟩⟩ ⟨0, 1, fun _ _ => 0⟩).bins =
      some ⟨[], [], [[]]⟩ := rfl

/-- C3 amended: `create_bins` raises no exception for any input matrix,
including `n = 0` rows or `d = 0` columns: it always establishes bins, with
bound arrays of length `n` and one stratified column per input column. -/
theorem create_bins_total_spec (c : Criterion) (m : Mat) :
    (create_bins c m).bins.isSome = true ∧
    (create_bins c m).getA.length = m.rows ∧
    (create_bins c m).getB.length = m.rows ∧
    (create_bins c m).getSamples.length = m.cols := by
  refine ⟨rfl, create_bins_getA_length c m, create_bins_getB_length c m, ?_⟩
  rw [getSamples_create_bins, List.length_map, drawColumns_fst_length]

/-- C4: invoking `generate_samples` on a freshly constructed sampler — before
`create_bins` has ever established stratum bounds — fails with `StateError`,
for every rearrangement variant and every accepted random-source
configuration. -/
theorem generate_samples_before_bins_spec (rearrange : Bins → List (List ℚ))
    (mt : ℤ → ℕ → ℚ) (globalR : RandomState) (inp : RandomStateInput)
    (c : Criterion) (h : Criterion.init mt globalR inp = .ok c) :
    generate_samples rearrange c = .error .StateError := by
  cases inp with
  | noneI =>
    rw [show Criterion.init mt globalR .noneI = .ok ⟨none, globalR⟩ from rfl] at h
    cases h
    rfl
  | intSeed s =>
    rw [show Criterion.init mt globalR (.intSeed s) = .ok ⟨none, ⟨mt s, 0⟩⟩ from rfl] at h
    cases h
    rfl
  | gen g =>
    rw [show Criterion.init mt globalR (.gen g) = .ok ⟨none, g⟩ from rfl] at h
    cases h
    rfl
  | other t =>
    rw [show Criterion.init mt globalR (.other t) = .error .ConfigurationError from rfl] at h
    cases h

/-- Witness for C4: a sampler built with `random_state=None`. -/
theorem generate_samples_before_bins_spec_witness :
    generate_samples (fun bn => bn.samples) critHalf = .error .StateError :=
  generate_samples_before_bins_spec (fun bn => bn.samples) (fun _ _ => 0)
    constHalfRS .noneI critHalf rfl

/-- `create_bins` reads only the shape of its argument. -/
theorem create_bins_shape_only (c : Criterion) (m1 m2 : Mat)
    (hr : m1.rows = m2.rows) (hc : m1.cols = m2.cols) :
    create_bins c m1 = create_bins c m2 := by
  unfold create_bins
  rw [hr, hc]

/-- C5: two-run determinism — two sampler instances each initialized with the
same integer seed `s` (regardless of the ambient global generator) and given
input matrices of the same shape produce identical results from `create_bins`:
identical bound arrays, identical stratified matrices, identical final
generator states. -/
theorem create_bins_deterministic_spec (mt : ℤ → ℕ → ℚ)
    (globalR1 globalR2 : RandomState) (s : ℤ) (c1 c2 : Criterion) (m1 m2 : Mat)
    (h1 : Criterion.init mt globalR1 (.intSeed s) = .ok c1)
    (h2 : Criterion.init mt globalR2 (.intSeed s) = .ok c2)
    (hr : m1.rows = m2.rows) (hc : m1.cols = m2.cols) :
    create_bins c1 m1 = create_bins c2 m2 := by
  rw [show Criterion.init mt globalR1 (.intSeed s) = .ok ⟨none, ⟨mt s, 0⟩⟩ from rfl] at h1
  rw [show Criterion.init mt globalR2 (.intSeed s) = .ok ⟨none, ⟨mt s, 0⟩⟩ from rfl] at h2
  cases h1
  cases h2
  exact create_bins_shape_only _ m1 m2 hr hc

/-- A deterministic seed-to-stream map (used by witnesses). -/
def mtW : ℤ → ℕ → ℚ := fun _ _ => 1 / 3

/-- Witness for C5 with seed 7 and two different 1×1 matrices. -/
theorem create_bins_deterministic_spec_witness :
    create_bins ⟨none, ⟨mtW 7, 0⟩⟩ mat11 =
      create_bins ⟨none, ⟨mtW 7, 0⟩⟩ ⟨1, 1, fun _ _ => 5⟩ :=
  create_bins_deterministic_spec mtW constHalfRS ⟨fun _ => 0, 5⟩ 7
    ⟨none, ⟨mtW 7, 0⟩⟩ ⟨none, ⟨mtW 7, 0⟩⟩ mat11 ⟨1, 1, fun _ _ => 5⟩
    rfl rfl rfl rfl

/-- C7: noninterference on input values — with the random source in the same
state, `create_bins` on two input matrices of the same shape produces
identical bound arrays and identical stratified matrices; only the shape of
`samples` influences the result, never its entries. -/
theorem create_bins_noninterference_spec (c : Criterion) (m1 m2 : Mat)
    (hr : m1.rows = m2.rows) (hc : m1.cols = m2.cols) :
    create_bins c m1 = create_bins c m2 :=
  create_bins_shape_only c m1 m2 hr hc

/-- Witness for C7: two 1×1 matrices with different entries. -/
theorem create_bins_noninterference_spec_witness :
    create_bins critHalf mat11 = create_bins critHalf ⟨1, 1, fun _ _ => 9⟩ :=
  create_bins_noninterference_spec critHalf mat11 ⟨1, 1, fun _ _ => 9⟩ rfl rfl

/-- The deterministic draw stream of the C6 scenario: 0.1, 0.5, 0.2, 0.9. -/
def scenarioRS : RandomState :=
  ⟨fun k => [(1 : ℚ) / 10, 1 / 2, 1 / 5, 9 / 10].getD k 0, 0⟩

/-- A sampler holding the C6 scenario stream. -/
def scenarioCrit : Criterion := ⟨none, scenarioRS⟩

/-- A 4×1 input matrix for the C6 scenario. -/
def mat41 : Mat := ⟨4, 1, fun _ _ => 0⟩

/-- C6: with `n = 4`, `d = 1` and the uniform draws fixed to
`u = [0.1, 0.5, 0.2, 0.9]`, `create_bins` produces exactly
`a = [0, 0.25, 0.5, 0.75]`, `b = [0.25, 0.5, 0.75, 1.0]` and stratified
values `[0.025, 0.375, 0.55, 0.975]`. -/
theorem create_bins_scenario_spec :
    (create_bins scenarioCrit mat41).getA = [0, 1 / 4, 1 / 2, 3 / 4] ∧
    (create_bins scenarioCrit mat41).getB = [1 / 4, 1 / 2, 3 / 4, 1] ∧
    (create_bins scenarioCrit mat41).getSamples =
      [[1 / 40, 3 / 8, 11 / 20, 39 / 40]] := by
  refine ⟨?_, ?_, ?_⟩ <;>
    norm_num [create_bins, Criterion.getA, Criterion.getB, Criterion.getSamples,
      scenarioCrit, scenarioRS, mat41, linspace01, uniform_rvs, drawColumns,
      stratColumn, List.range_succ]

/-- C8: sampler construction accepts exactly the three random-source
configurations — an integer seed (wrapped into a fresh deterministic
generator at cursor 0), an already-constructed generator (used as-is), or
nothing (the ambient non-deterministic default) — and fails with
`ConfigurationError` for a value of any other type. -/
theorem init_random_state_spec (mt : ℤ → ℕ → ℚ) (globalR : RandomState) :
    (∀ s : ℤ, Criterion.init mt globalR (.intSeed s) = .ok ⟨none, ⟨mt s, 0⟩⟩) ∧
    (∀ g : RandomState, Criterion.init mt globalR (.gen g) = .ok ⟨none, g⟩) ∧
    Criterion.init mt globalR .noneI = .ok ⟨none, globalR⟩ ∧
    (∀ t : String, Criterion.init mt globalR (.other t) =
      .error .ConfigurationError) :=
  ⟨fun _ => rfl, fun _ => rfl, rfl, fun _ => rfl⟩

/-! ### Distribution.update_parameters -/

/-- The keys of a parameters dictionary, modelled as an association list in
insertion order (which is how a Python dict behaves). -/
def getKeys (ps : List (String × ℤ)) : List String := ps.map Prod.fst

/-- `d[key] = value` on an existing key of a Python dict: the value is
replaced in place and insertion order is unchanged. -/
def setParam (ps : List (String × ℤ)) (k : String) (v : ℤ) : List (String × ℤ) :=
  ps.map (fun p => if p.1 = k then (p.1, v) else p)

/-- Python errors that can escape `update_parameters`. -/
inductive PyError
  | RecursionError
  | ValueError
deriving DecidableEq

/-- The `parameters` property getter (Distribution.py lines 75-82):
`return self.parameters` re-invokes the same property and never reads the
`self._parameters` backing field that the setter wrote (`store` here).
Call depth is bounded by the Python recursion limit (`fuel`); `none` is the
`RecursionError` raised when the budget is exhausted — which happens on every
read, for every budget. -/
def parameters_getter (store : List (String × ℤ)) : ℕ → Option (List (String × ℤ))
  | 0 => none
  | fuel + 1 => parameters_getter store fuel

/-- `Distribution.update_parameters(**kwargs)` (Distribution.py lines 40-53)
as it actually executes: each loop iteration evaluates
`self.get_parameters()` — a read of the `parameters` property — to validate
the key, raising `ValueError("Wrong parameter name.")` on an unknown key and
otherwise writing `self.parameters[key] = kwargs[key]` into the dictionary
the read returned.  With empty `kwargs` the loop body never runs and the
call returns successfully. -/
def update_parameters (fuel : ℕ) (store : List (String × ℤ)) :
    List (String × ℤ) → Except PyError (List (String × ℤ))
  | [] => .ok store
  | (k, v) :: rest =>
    match parameters_getter store fuel with
    | none => .error .RecursionError
    | some ps =>
      if k ∈ getKeys ps then update_parameters fuel (setParam ps k v) rest
      else .error .ValueError

theorem parameters_getter_none (store : List (String × ℤ)) :
    ∀ fuel : ℕ, parameters_getter store fuel = none
  | 0 => rfl
  | fuel + 1 => parameters_getter_none store fuel

/-- C9 (code bug): the `parameters` property getter returns `self.parameters`
itself, so every read of the parameters dictionary exhausts any recursion
budget; hence `update_parameters` with any non-empty keyword list raises
`RecursionError` before any key is validated or written — never the
`ValueError`-on-unknown-key-with-earlier-keys-written behaviour that its own
body and docstring describe.  The last conjunct evaluates the code at the
concrete failing input `{loc: 0, scale: 1}` updated with `loc=5`. -/
theorem update_parameters_recursion_bug :
    (∀ (store : List (String × ℤ)) (fuel : ℕ),
      parameters_getter store fuel = none) ∧
    (∀ (fuel : ℕ) (store : List (String × ℤ)) (k : String) (v : ℤ)
        (rest : List (String × ℤ)),
      update_parameters fuel store ((k, v) :: rest) = .error .RecursionError) ∧
    update_parameters 1000 [("loc", 0), ("scale", 1)] [("loc", 5)] =
      .error .RecursionError := by
  refine ⟨parameters_getter_none, ?_, ?_⟩
  · intro fuel store k v rest
    simp [update_parameters, parameters_getter_none]
  · simp [update_parameters, parameters_getter_none]

/-! ### ExpectedImprovement.evaluate_function -/

/-- Python `min(qoi)` (`fm = min(self.qoi)`); 0 on the empty list. -/
def listMin : List ℚ → ℚ
  | [] => 0
  | x :: xs => xs.foldl min x

/-- Python `max` of a list (`max(eif[:, 0])`); 0 on the empty list. -/
def listMax : List ℚ → ℚ
  | [] => 0
  | x :: xs => xs.foldl max x

/-- The vectorized line
`eif = (fm - g) * stats.norm.cdf((fm - g) / sig) + sig * stats.norm.pdf((fm - g) / sig)`
evaluated elementwise over the `g.length` candidates; `normCdf` and `normPdf`
abstract `stats.norm.cdf` and `stats.norm.pdf`. -/
def eifScores (normCdf normPdf : ℚ → ℚ) (fm : ℚ) (g sig : List ℚ) : List ℚ :=
  (List.range g.length).map (fun i =>
    (fm - g.getD i 0) * normCdf ((fm - g.getD i 0) / sig.getD i 0) +
      sig.getD i 0 * normPdf ((fm - g.getD i 0) / sig.getD i 0))

/-- `np.argsort(v)`: the indices `0 .. v.length - 1` sorted so that the values
they point to are ascending (one valid argsort permutation; numpy's tie order
is unspecified for its default quicksort). -/
def argsort (v : List ℚ) : List ℕ :=
  (List.range v.length).mergeSort (fun i j => decide (v.getD i 0 ≤ v.getD j 0))

/-- `ExpectedImprovement.evaluate_function`:
`g, sig = self.surrogate(self.pop, True)` (the surrogate is an abstract
collaborator returning the prediction and its standard deviation, one value
per row of `pop`); `fm = min(self.qoi)`; the EIF scores;
`rows = eif[:, 0].argsort()[(np.size(g) - self.n_add):]`; the stopping
indicator `max(eif[:, 0]) / abs(fm) <= self.eif_stop`; returns
`(self.pop[rows, :], eif[rows, :], indicator)`. -/
def evaluate_function (normCdf normPdf : ℚ → ℚ)
    (surrogate : List (List ℚ) → List ℚ × List ℚ)
    (pop : List (List ℚ)) (n_add : ℕ) (eif_stop : ℚ) (qoi : List ℚ) :
    List (List ℚ) × List ℚ × Bool :=
  let g := (surrogate pop).1
  let sig := (surrogate pop).2
  let fm := listMin qoi
  let eif := eifScores normCdf normPdf fm g sig
  let rows := (argsort eif).drop (g.length - n_add)
  let indicator := decide (listMax eif / |fm| ≤ eif_stop)
  (rows.map (fun i => pop.getD i []), rows.map (fun i => eif.getD i 0), indicator)

theorem map_getD_range (l : List ℚ) :
    (List.range l.length).map (fun i => l.getD i 0) = l := by
  refine List.ext_getElem (by simp) ?_
  intro i h1 h2
  simp [List.getD_eq_getElem?_getD, List.getElem?_eq_getElem h2]

theorem argsort_perm (v : List ℚ) : List.Perm (argsort v) (List.range v.length) :=
  List.mergeSort_perm _ _

theorem argsort_length (v : List ℚ) : (argsort v).length = v.length := by
  simpa using (argsort_perm v).length_eq

theorem argsort_mem_lt (v : List ℚ) (i : ℕ) (h : i ∈ argsort v) : i < v.length := by
  have := (argsort_perm v).mem_iff.mp h
  simpa using this

theorem argsort_vals_perm (v : List ℚ) :
    List.Perm ((argsort v).map (fun i => v.getD i 0)) v := by
  have h := (argsort_perm v).map (fun i => v.getD i 0)
  rw [map_getD_range] at h
  exact h

theorem argsort_vals_pairwise (v : List ℚ) :
    ((argsort v).map (fun i => v.getD i 0)).Pairwise (· ≤ ·) := by
  have hs : (argsort v).Pairwise
      (fun i j => decide (v.getD i 0 ≤ v.getD j 0) = true) := by
    apply List.sorted_mergeSort
    · intro a b c hab hbc
      simp only [decide_eq_true_eq] at *
      exact le_trans hab hbc
    · intro a b
      simp only [Bool.or_eq_true, decide_eq_true_eq]
      exact le_total _ _
  refine List.Pairwise.map _ ?_ hs
  intro a b hab
  simpa using hab

/-- C10: for a population of `m ≥ 1` rows and `1 ≤ n_add ≤ m`,
`evaluate_function` returns exactly `n_add` rows of `pop` together with their
expected-improvement scores; each returned row is a row of `pop` paired with
its score; the returned scores are in ascending order and form the `n_add`
largest scores of the population (every non-selected score is ≤ every
selected one); and the stopping indicator is `True` iff the maximum score
divided by `|min(qoi)|` is `≤ eif_stop`. -/
theorem evaluate_function_spec (normCdf normPdf : ℚ → ℚ)
    (surrogate : List (List ℚ) → List ℚ × List ℚ)
    (pop : List (List ℚ)) (n_add : ℕ) (eif_stop : ℚ) (qoi : List ℚ)
    (out : List (List ℚ) × List ℚ × Bool) (eif : List ℚ)
    (hout : out = evaluate_function normCdf normPdf surrogate pop n_add eif_stop qoi)
    (heif : eif = eifScores normCdf normPdf (listMin qoi) (surrogate pop).1
      (surrogate pop).2)
    (_hm : 1 ≤ pop.length) (h1 : 1 ≤ n_add) (h2 : n_add ≤ pop.length)
    (hg : (surrogate pop).1.length = pop.length) :
    out.1.length = n_add ∧
    out.2.1.length = n_add ∧
    (∀ k, k < n_add → ∃ i, i < pop.length ∧
      out.1.getD k [] = pop.getD i [] ∧ out.2.1.getD k 0 = eif.getD i 0) ∧
    out.2.1.Pairwise (· ≤ ·) ∧
    (∃ rest, List.Perm (rest ++ out.2.1) eif ∧
      ∀ x ∈ rest, ∀ y ∈ out.2.1, x ≤ y) ∧
    (out.2.2 = true ↔ listMax eif / |listMin qoi| ≤ eif_stop) := by
  subst hout heif
  have hlen_eif : (eifScores normCdf normPdf (listMin qoi) (surrogate pop).1
      (surrogate pop).2).length = (surrogate pop).1.length := by
    simp [eifScores]
  set eif := eifScores normCdf normPdf (listMin qoi) (surrogate pop).1
    (surrogate pop).2 with heifdef
  have hfst : (evaluate_function normCdf normPdf surrogate pop n_add eif_stop qoi).1 =
      ((argsort eif).drop ((surrogate pop).1.length - n_add)).map
        (fun i => pop.getD i []) := rfl
  have hsnd : (evaluate_function normCdf normPdf surrogate pop n_add eif_stop qoi).2.1 =
      ((argsort eif).drop ((surrogate pop).1.length - n_add)).map
        (fun i => eif.getD i 0) := rfl
  have hind : (evaluate_function normCdf normPdf surrogate pop n_add eif_stop qoi).2.2 =
      decide (listMax eif / |listMin qoi| ≤ eif_stop) := rfl
  have hrowslen : ((argsort eif).drop ((surrogate pop).1.length - n_add)).length
      = n_add := by
    rw [List.length_drop, argsort_length, hlen_eif]
    omega
  have hsndsrt : ((argsort eif).drop ((surrogate pop).1.length - n_add)).map
      (fun i => eif.getD i 0) =
      ((argsort eif).map (fun i => eif.getD i 0)).drop
        ((surrogate pop).1.length - n_add) := by
    rw [List.map_drop]
  refine ⟨?_, ?_, ?_, ?_, ?_, ?_⟩
  · rw [hfst, List.length_map, hrowslen]
  · rw [hsnd, List.length_map, hrowslen]
  · intro k hk
    have hkrows : k <
        ((argsort eif).drop ((surrogate pop).1.length - n_add)).length := by
      rw [hrowslen]; exact hk
    refine ⟨((argsort eif).drop ((surrogate pop).1.length - n_add))[k], ?_, ?_, ?_⟩
    · have hmem : ((argsort eif).drop ((surrogate pop).1.length - n_add))[k] ∈
          argsort eif :=
        List.mem_of_mem_drop (List.getElem_mem hkrows)
      have hlt := argsort_mem_lt eif _ hmem
      rw [hlen_eif] at hlt
      exact Nat.lt_of_lt_of_le hlt (Nat.le_of_eq hg)
    · rw [hfst, List.getD_eq_getElem?_getD, List.getElem?_map,
        List.getElem?_eq_getElem hkrows]
      rfl
    · rw [hsnd, List.getD_eq_getElem?_getD, List.getElem?_map,
        List.getElem?_eq_getElem hkrows]
      rfl
  · rw [hsnd, hsndsrt]
    exact List.Pairwise.sublist (List.drop_sublist _ _) (argsort_vals_pairwise eif)
  · refine ⟨((argsort eif).map (fun i => eif.getD i 0)).take
      ((surrogate pop).1.length - n_add), ?_, ?_⟩
    · rw [hsnd, hsndsrt, List.take_append_drop]
      exact argsort_vals_perm eif
    · intro x hx y hy
      rw [hsnd, hsndsrt] at hy
      have hp := argsort_vals_pairwise eif
      have hsplit := (List.take_append_drop ((surrogate pop).1.length - n_add)
        ((argsort eif).map (fun i => eif.getD i 0))).symm
      rw [hsplit] at hp
      exact (List.pairwise_append.mp hp).2.2 x hx y hy
  · rw [hind]
    exact decide_eq_true_iff

/-- A concrete surrogate for the C10 witness: predictions `[0, 1]` with
standard deviations `[1, 1]`. -/
def wSurr : List (List ℚ) → List ℚ × List ℚ := fun _ => ([0, 1], [1, 1])

/-- The two-row population of the C10 witness. -/
def wPop : List (List ℚ) := [[0], [1]]

/-- The C10 witness output of `evaluate_function`. -/
def wOut : List (List ℚ) × List ℚ × Bool :=
  evaluate_function (fun x => x) (fun x => x) wSurr wPop 1 100 [2]

/-- The C10 witness score vector. -/
def wEif : List ℚ :=
  eifScores (fun x => x) (fun x => x) (listMin [2]) (wSurr wPop).1 (wSurr wPop).2

/-- Witness for C10 at `m = 2`, `n_add = 1`. -/
theorem evaluate_function_spec_witness :
    wOut.1.length = 1 ∧
    wOut.2.1.length = 1 ∧
    (∀ k, k < 1 → ∃ i, i < wPop.length ∧
      wOut.1.getD k [] = wPop.getD i [] ∧ wOut.2.1.getD k 0 = wEif.getD i 0) ∧
    wOut.2.1.Pairwise (· ≤ ·) ∧
    (∃ rest, List.Perm (rest ++ wOut.2.1) wEif ∧
      ∀ x ∈ rest, ∀ y ∈ wOut.2.1, x ≤ y) ∧
    (wOut.2.2 = true ↔ listMax wEif / |listMin [2]| ≤ 100) :=
  evaluate_function_spec (fun x => x) (fun x => x) wSurr wPop 1 100 [2] wOut wEif
    rfl rfl (by decide) (by decide) (by decide) (by decide)
